import Mathlib

/-!
Shallow embedding of the benchmark-export core of this repository
(`bench_analysis/export_bench_to_csv.py`, with the shared throughput
formatter also present in `scripts/parse_bench_results.py`).

Modelling conventions:
* Python floats are modelled as exact rationals (`ℚ`); no claim below
  depends on binary floating-point rounding.
* File modification times are epoch seconds (`Nat`); `datetime.fromtimestamp`
  is modelled at a fixed (UTC) offset via the standard civil-calendar
  conversion, giving the same one-second resolution the spec relies on.
* The filesystem is a finite tree of named entries; `estimates.json` leaves
  carry their mtime and their parsed JSON content (`none` models content
  that `json.load` rejects).
* The destination CSV is either missing, unreadable (`csv` raises while
  iterating rows), or a readable table of lines, each line a list of cell
  strings (the `csv` module round-trips cells faithfully, so quoting is
  not modelled).  Rendering of numeric cells uses a fixed total function;
  only the `run_id` and `test_name` cells are ever read back.
-/

set_option autoImplicit false

/-- Left-pad a number below 100 to two digits, as `strftime`/`isoformat` do. -/
def pad2 (n : Nat) : String :=
  if n < 10 then "0" ++ toString n else toString n

/-- Civil-calendar date (year, month, day) of a day count since 1970-01-01,
the standard days-to-civil conversion used to model `datetime.fromtimestamp`. -/
def civilFromDays (z0 : Nat) : Nat × Nat × Nat :=
  let z := z0 + 719468
  let era := z / 146097
  let doe := z % 146097
  let yoe := (doe - doe / 1460 + doe / 36524 - doe / 146096) / 365
  let y := yoe + era * 400
  let doy := doe - (365 * yoe + yoe / 4 - yoe / 100)
  let mp := (5 * doy + 2) / 153
  let d := doy - (153 * mp + 2) / 5 + 1
  let m := if mp < 10 then mp + 3 else mp - 9
  (if m ≤ 2 then y + 1 else y, m, d)

/-- `get_run_id_from_file`: run identity from the file's modification time,
`strftime("%Y%m%d_%H%M%S")` at one-second resolution. -/
def get_run_id_from_file (mtime : Nat) : String :=
  let date := civilFromDays (mtime / 86400)
  let s := mtime % 86400
  toString date.1 ++ pad2 date.2.1 ++ pad2 date.2.2 ++ "_" ++
    pad2 (s / 3600) ++ pad2 ((s % 3600) / 60) ++ pad2 (s % 60)

/-- `datetime.fromtimestamp(mtime).isoformat()` for whole-second times. -/
def isoTimestamp (mtime : Nat) : String :=
  let date := civilFromDays (mtime / 86400)
  let s := mtime % 86400
  toString date.1 ++ "-" ++ pad2 date.2.1 ++ "-" ++ pad2 date.2.2 ++ "T" ++
    pad2 (s / 3600) ++ ":" ++ pad2 ((s % 3600) / 60) ++ ":" ++ pad2 (s % 60)

/-- Round-half-to-even to an integer, modelling Python's rounding of floats. -/
def roundHalfEven (q : ℚ) : ℤ :=
  let f : ℤ := ⌊q⌋
  let r : ℚ := q - (f : ℚ)
  if r < 1 / 2 then f
  else if 1 / 2 < r then f + 1
  else if f % 2 = 0 then f else f + 1

/-- Python's `round(x, 2)`: round to two decimal places. -/
def round2 (q : ℚ) : ℚ :=
  (roundHalfEven (q * 100) : ℚ) / 100

/-- Python's `f"{x:.2f}"`: exactly two decimal places. -/
def formatFixed2 (q : ℚ) : String :=
  let c := roundHalfEven (q * 100)
  let sign := if c < 0 then "-" else ""
  let n := c.natAbs
  sign ++ toString (n / 100) ++ "." ++ pad2 (n % 100)

/-- `format_throughput(ns, n)`: throughput `(ops_per_sec, pretty_string)` with a
zero-time guard and successive thousands thresholds for the display suffix
(identical in both source files; the second file returns only the string). -/
def format_throughput (ns : ℚ) (n : ℕ) : ℚ × String :=
  if ns = 0 then (0, "N/A")
  else
    let ops_per_sec : ℚ := (n * 1000000000 : ℚ) / ns
    if ops_per_sec ≥ 1000000000 then
      (ops_per_sec, formatFixed2 (ops_per_sec / 1000000000) ++ " Gops/s")
    else if ops_per_sec ≥ 1000000 then
      (ops_per_sec, formatFixed2 (ops_per_sec / 1000000) ++ " Mops/s")
    else if ops_per_sec ≥ 1000 then
      (ops_per_sec, formatFixed2 (ops_per_sec / 1000) ++ " Kops/s")
    else
      (ops_per_sec, formatFixed2 ops_per_sec ++ " ops/s")

/-- Parsed content of one `estimates.json`: the `median`/`mean` nested
`point_estimate` fields, each `none` when absent (then defaulted to 0). -/
structure EstData where
  median : Option ℚ
  mean : Option ℚ
deriving DecidableEq

/-- One `estimates.json` leaf: modification time plus parsed content
(`data = none` models content `json.load` rejects). -/
structure EstimatesFile where
  mtime : Nat
  data : Option EstData
deriving DecidableEq

/-- A filesystem node: a directory of uniquely named entries, or an
estimates leaf file. -/
inductive FsEntry where
  | dir (entries : List (String × FsEntry))
  | file (f : EstimatesFile)

/-- One normalized benchmark observation (the dict built in
`process_estimates_file`). -/
structure Record where
  run_id : String
  benchmark : String
  test_name : String
  operation : String
  size : String
  median_ns : ℚ
  mean_ns : ℚ
  throughput_ops_sec : ℚ
  throughput_pretty : String
  timestamp : String
  tag : String
deriving DecidableEq

/-- Split a character list at every occurrence of `sep` (Python's
`str.split(sep)` on the underlying characters; never returns `[]`). -/
def splitChars (sep : Char) : List Char → List (List Char)
  | [] => [[]]
  | c :: rest =>
    match splitChars sep rest with
    | [] => [[]]
    | g :: gs => if c = sep then [] :: g :: gs else (c :: g) :: gs

/-- Python's `test_name.split('/')`. -/
def pySplit (sep : Char) (s : String) : List String :=
  (splitChars sep s.toList).map (fun cs => String.mk cs)

/-- Python's `str.isdigit`, restricted to ASCII decimal digits.  (Non-ASCII
digit strings are outside the model; for those accepted by `isdigit` but
rejected by `int()` the source's `except` also yields the fallback 1.) -/
def pyIsDigit (s : String) : Bool :=
  !s.isEmpty && s.toList.all Char.isDigit

/-- `int(s)` for a string of ASCII decimal digits. -/
def natFromDigits (s : String) : Nat :=
  s.toList.foldl (fun a c => 10 * a + (c.toNat - 48)) 0

/-- `process_estimates_file`: build the record list (one record, or none on a
parse failure) for one resolved estimates path.  The entry `e` is the node the
path resolved to; an unreadable node (a directory where the file was expected,
or unparseable JSON) is skipped by the source's `try`/`except`. -/
def process_estimates_file (e : FsEntry) (bench_name test_name source tag : String) :
    List Record :=
  match e with
  | FsEntry.dir _ => []
  | FsEntry.file f =>
    match f.data with
    | none => []
    | some dat =>
      let run_id := get_run_id_from_file f.mtime
      let timestamp := isoTimestamp f.mtime
      let parts := pySplit '/' test_name
      let operation := parts.headD test_name
      let size := if 1 < parts.length then parts.getD 1 "N/A" else "N/A"
      let median_ns := dat.median.getD 0
      let mean_ns := dat.mean.getD 0
      let size_n := if pyIsDigit size then natFromDigits size else 1
      let t := format_throughput median_ns size_n
      [{ run_id := run_id, benchmark := bench_name, test_name := test_name,
         operation := operation, size := size,
         median_ns := round2 median_ns, mean_ns := round2 mean_ns,
         throughput_ops_sec := round2 t.1, throughput_pretty := t.2,
         timestamp := timestamp, tag := tag }]

/-- Look up a named entry of a directory listing (`iterdir` names are unique). -/
def lookupEntry (name : String) (es : List (String × FsEntry)) : Option FsEntry :=
  (es.find? (fun p => p.1 = name)).map (fun p => p.2)

/-- Resolve a relative path below a directory listing; `some e` iff the whole
path exists (the `Path.exists()` checks of the source). -/
def resolvePath : List (String × FsEntry) → List String → Option FsEntry
  | _, [] => none
  | es, [n] => lookupEntry n es
  | es, n :: rest =>
    match lookupEntry n es with
    | some (FsEntry.dir es') => resolvePath es' rest
    | _ => none

/-- Substring containment on character lists, Python's `a in b` for strings. -/
def containsSub : List Char → List Char → Bool
  | p, [] => p.isEmpty
  | p, c :: rest => p.isPrefixOf (c :: rest) || containsSub p rest

/-- The benchmark-directory filter `if bench_filter and bench_filter not in
name: continue` — a falsy (absent or empty) filter keeps everything. -/
def matchesFilter (bench_filter : Option String) (name : String) : Bool :=
  match bench_filter with
  | none => true
  | some f => f.isEmpty || containsSub f.toList name.toList

/-- The per-test-directory step of `parse_benchmark_results`: first probe the
two-level layout `test_dir/source/estimates.json`; only if that path does not
exist, probe every parameter subdirectory at the three-level layout
`test_dir/param/source/estimates.json`, joining the test and parameter names
with "/". -/
def processTestDir (bench_name tname source tag : String)
    (tentries : List (String × FsEntry)) : List Record :=
  match resolvePath tentries [source, "estimates.json"] with
  | some e => process_estimates_file e bench_name tname source tag
  | none =>
    (tentries.map (fun p =>
      match p.2 with
      | FsEntry.dir pentries =>
        match resolvePath pentries [source, "estimates.json"] with
        | some e =>
          process_estimates_file e bench_name (tname ++ "/" ++ p.1) source tag
        | none => []
      | _ => [])).flatten

/-- `parse_benchmark_results`: walk the criterion directory (`none` models a
missing root, returning no results), visiting each benchmark directory that
survives the filter and each of its test subdirectories. -/
def parse_benchmark_results (criterion_dir : Option (List (String × FsEntry)))
    (source : String) (bench_filter : Option String) (tag : String) : List Record :=
  match criterion_dir with
  | none => []
  | some entries =>
    (entries.map (fun b =>
      match b.2 with
      | FsEntry.dir bentries =>
        if matchesFilter bench_filter b.1 then
          (bentries.map (fun t =>
            match t.2 with
            | FsEntry.dir tentries => processTestDir b.1 t.1 source tag tentries
            | _ => [])).flatten
        else []
      | _ => [])).flatten

/-- The fixed CSV column order of `export_to_csv`. -/
def FIELDNAMES : List String :=
  ["run_id", "benchmark", "test_name", "operation", "size",
   "median_ns", "mean_ns", "throughput_ops_sec", "throughput_pretty",
   "timestamp", "tag"]

/-- Rendering of a numeric cell.  The exact text is irrelevant to every claim
(only the `run_id` and `test_name` cells are ever read back); a fixed total
rendering stands in for Python's `str` on floats. -/
def numCell (q : ℚ) : String :=
  toString q.num ++ "/" ++ toString q.den

/-- The CSV line `csv.DictWriter.writerow` emits for one record, cells in
`FIELDNAMES` order. -/
def recordToRow (r : Record) : List String :=
  [r.run_id, r.benchmark, r.test_name, r.operation, r.size,
   numCell r.median_ns, numCell r.mean_ns, numCell r.throughput_ops_sec,
   r.throughput_pretty, r.timestamp, r.tag]

/-- `row.get(name, '')` of a `csv.DictReader` row: the cell under the header
column `name`, `"None"` when the row is shorter than the header (the reader's
`restval`), `""` when the header has no such column. -/
def getField (hdr row : List String) (name : String) : String :=
  match hdr.findIdx? (fun h => h == name) with
  | some i => row.getD i "None"
  | none => ""

/-- The identity key a `csv.DictReader` row contributes in
`load_existing_run_ids`: `f"{row.get('run_id','')}:{row.get('test_name','')}"`. -/
def rowKey (hdr row : List String) : String :=
  getField hdr row "run_id" ++ ":" ++ getField hdr row "test_name"

/-- The observable states of the destination CSV file: absent, present but
unreadable as CSV rows (reading raises, so such a file is nonempty), or a
readable table of lines. -/
inductive Dest where
  | missing
  | malformed
  | table (lines : List (List String))
deriving DecidableEq

/-- The lines of a readable destination (used only for `missing`/`table`). -/
def destLines : Dest → List (List String)
  | Dest.missing => []
  | Dest.malformed => []
  | Dest.table l => l

/-- `csv_path.exists() and csv_path.stat().st_size > 0`: a malformed file
exists and is nonempty (an empty file reads as an empty table). -/
def destExistsNonEmpty : Dest → Bool
  | Dest.missing => false
  | Dest.malformed => true
  | Dest.table l => !l.isEmpty

/-- `open(csv_path, 'a')` followed by writing `ls`: creates a missing file;
appending rows after unreadable content leaves the file unreadable as a table
(its first line is still not a header row). -/
def appendToDest : Dest → List (List String) → Dest
  | Dest.missing, ls => Dest.table ls
  | Dest.table l, ls => Dest.table (l ++ ls)
  | Dest.malformed, _ => Dest.malformed

/-- `load_existing_run_ids`: the identity keys of the destination's data rows;
a missing destination, or one whose read raises, yields no keys (the
`except` prints a warning and the run proceeds). -/
def load_existing_run_ids (d : Dest) : List String :=
  match d with
  | Dest.missing => []
  | Dest.malformed => []
  | Dest.table [] => []
  | Dest.table (hdr :: rows) => rows.map (fun row => rowKey hdr row)

/-- The identity key of an incoming record:
`f"{result['run_id']}:{result['test_name']}"`. -/
def dedupKey (r : Record) : String :=
  r.run_id ++ ":" ++ r.test_name

/-- The duplicate-filter loop of `export_to_csv`: returns
`(new_results, skipped, existing_ids)`, threading the growing key set
(`existing_ids.add(key)  # Track for this session`). -/
def dedupLoop : List Record → List String → List Record × Nat × List String
  | [], ids => ([], 0, ids)
  | r :: rest, ids =>
    if dedupKey r ∈ ids then
      let out := dedupLoop rest ids
      (out.1, out.2.1 + 1, out.2.2)
    else
      let out := dedupLoop rest (ids.insert (dedupKey r))
      (r :: out.1, out.2.1, out.2.2)

/-- `export_to_csv`: returns `(count written, destination state, key set)`.
The destination and the key set are the two pieces of state the Python
function mutates; the `Nat` is its return value. -/
def export_to_csv (results : List Record) (d : Dest) (existing_ids : List String) :
    Nat × Dest × List String :=
  if results.isEmpty then (0, d, existing_ids)
  else
    let out := dedupLoop results existing_ids
    if out.1.isEmpty then (0, d, out.2.2)
    else
      let newLines :=
        (if destExistsNonEmpty d then [] else [FIELDNAMES]) ++ out.1.map recordToRow
      (out.1.length, appendToDest d newLines, out.2.2)

/-- The discover-then-export pipeline of `main`: load the existing keys, parse
the benchmark results, and (when any were found) export them; returns the
count of newly written records and the destination's new state. -/
def runPipeline (criterion_dir : Option (List (String × FsEntry)))
    (source : String) (bench_filter : Option String) (tag : String)
    (d : Dest) : Nat × Dest :=
  let existing_ids := load_existing_run_ids d
  let results := parse_benchmark_results criterion_dir source bench_filter tag
  if results.isEmpty then (0, d)
  else
    let out := export_to_csv results d existing_ids
    (out.1, out.2.1)

/-! ### Concrete fixtures (used by witnesses) -/

/-- An estimates file: mtime 1970-01-01T00:00:00, median 500 ns, mean 520 ns. -/
def demoEst : EstimatesFile := ⟨0, some ⟨some 500, some 520⟩⟩

/-- A second estimates file with a different mtime and timings. -/
def demoEst2 : EstimatesFile := ⟨86400, some ⟨some 1000, some 1100⟩⟩

/-- A test directory with only the three-level (parameterized) layout:
`100/new/estimates.json`. -/
def demoParams : List (String × FsEntry) :=
  [("100", FsEntry.dir [("new", FsEntry.dir [("estimates.json", FsEntry.file demoEst)])])]

/-- A test directory with both the two-level layout `new/estimates.json` and a
parameter subdirectory `100/new/estimates.json`. -/
def demoBoth : List (String × FsEntry) :=
  [("new", FsEntry.dir [("estimates.json", FsEntry.file demoEst)]),
   ("100", FsEntry.dir [("new", FsEntry.dir [("estimates.json", FsEntry.file demoEst2)])])]

/-- A criterion root with one benchmark `compare_get` and one parameterized
test `insert/100`. -/
def demoFs : Option (List (String × FsEntry)) :=
  some [("compare_get", FsEntry.dir [("insert", FsEntry.dir demoParams)])]

/-- The record discovered from `demoParams` under test directory `insert`. -/
def demoRecord : Record :=
  { run_id := "19700101_000000", benchmark := "b", test_name := "insert/100",
    operation := "insert", size := "100",
    median_ns := round2 500, mean_ns := round2 520,
    throughput_ops_sec := round2 (format_throughput 500 100).1,
    throughput_pretty := (format_throughput 500 100).2,
    timestamp := "1970-01-01T00:00:00", tag := "" }

/-- A plain record with identity key `"r1:t1"`. -/
def demoRecA : Record :=
  ⟨"r1", "b", "t1", "op", "s", 0, 0, 0, "p", "ts", "x"⟩

/-- A record with the same identity key `"r1:t1"` as `demoRecA` but every
other field different. -/
def demoRecB : Record :=
  ⟨"r1", "b2", "t1", "op2", "s2", 1, 2, 3, "p2", "ts2", "y"⟩

/-! ### Helper lemmas about the duplicate-filter loop -/

lemma dedupLoop_sublist (rs : List Record) (ids : List String) :
    (dedupLoop rs ids).1.Sublist rs := by
  induction rs generalizing ids with
  | nil => simp [dedupLoop]
  | cons r0 rest ih =>
    by_cases h : dedupKey r0 ∈ ids
    · simp only [dedupLoop, if_pos h]
      exact (ih ids).cons r0
    · simp only [dedupLoop, if_neg h]
      exact (ih _).cons₂ r0

lemma dedupLoop_mem_key (rs : List Record) (ids : List String) (r : Record)
    (hr : r ∈ (dedupLoop rs ids).1) : dedupKey r ∉ ids := by
  induction rs generalizing ids with
  | nil => simp [dedupLoop] at hr
  | cons r0 rest ih =>
    by_cases h : dedupKey r0 ∈ ids
    · simp only [dedupLoop, if_pos h] at hr
      exact ih ids hr
    · simp only [dedupLoop, if_neg h] at hr
      rcases List.mem_cons.mp hr with rfl | hr'
      · exact h
      · intro hin
        exact ih _ hr' (List.mem_insert_of_mem hin)

lemma dedupLoop_length (rs : List Record) (ids : List String) :
    (dedupLoop rs ids).1.length + (dedupLoop rs ids).2.1 = rs.length := by
  induction rs generalizing ids with
  | nil => simp [dedupLoop]
  | cons r0 rest ih =>
    by_cases h : dedupKey r0 ∈ ids
    · simp only [dedupLoop, if_pos h, List.length_cons]
      have := ih ids
      omega
    · simp only [dedupLoop, if_neg h, List.length_cons]
      have := ih (ids.insert (dedupKey r0))
      omega

lemma dedupLoop_ids_mono (rs : List Record) (ids : List String) (a : String) :
    a ∈ ids → a ∈ (dedupLoop rs ids).2.2 := by
  induction rs generalizing ids with
  | nil => intro ha; simpa [dedupLoop] using ha
  | cons r0 rest ih =>
    intro ha
    by_cases h : dedupKey r0 ∈ ids
    · simp only [dedupLoop, if_pos h]
      exact ih ids ha
    · simp only [dedupLoop, if_neg h]
      exact ih _ (List.mem_insert_of_mem ha)

lemma dedupLoop_covers (rs : List Record) (ids : List String) (r : Record) :
    r ∈ rs → dedupKey r ∈ (dedupLoop rs ids).2.2 := by
  induction rs generalizing ids with
  | nil => intro hr; cases hr
  | cons r0 rest ih =>
    intro hr
    by_cases h : dedupKey r0 ∈ ids
    · simp only [dedupLoop, if_pos h]
      rcases List.mem_cons.mp hr with rfl | hr'
      · exact dedupLoop_ids_mono rest ids _ h
      · exact ih ids hr'
    · simp only [dedupLoop, if_neg h]
      rcases List.mem_cons.mp hr with rfl | hr'
      · exact dedupLoop_ids_mono rest _ _ (List.mem_insert_self _ _)
      · exact ih _ hr'

lemma dedupLoop_rep (rs : List Record) (ids : List String) (r : Record) :
    r ∈ rs → dedupKey r ∉ ids →
    ∃ r' ∈ (dedupLoop rs ids).1, dedupKey r' = dedupKey r := by
  induction rs generalizing ids with
  | nil => intro hr; cases hr
  | cons r0 rest ih =>
    intro hr hk
    by_cases h : dedupKey r0 ∈ ids
    · simp only [dedupLoop, if_pos h]
      rcases List.mem_cons.mp hr with rfl | hr'
      · exact absurd h hk
      · exact ih ids hr' hk
    · simp only [dedupLoop, if_neg h]
      rcases List.mem_cons.mp hr with rfl | hr'
      · exact ⟨r, List.mem_cons_self _ _, rfl⟩
      · by_cases he : dedupKey r = dedupKey r0
        · exact ⟨r0, List.mem_cons_self _ _, he.symm⟩
        · obtain ⟨r', hr'', hk'⟩ := ih _ hr' (by
            intro hin
            rcases List.mem_insert_iff.mp hin with h1 | h1
            · exact he h1
            · exact hk h1)
          exact ⟨r', List.mem_cons_of_mem _ hr'', hk'⟩

lemma dedupLoop_nodupKeys (rs : List Record) (ids : List String) :
    ((dedupLoop rs ids).1.map dedupKey).Nodup := by
  induction rs generalizing ids with
  | nil => simp [dedupLoop]
  | cons r0 rest ih =>
    by_cases h : dedupKey r0 ∈ ids
    · simp only [dedupLoop, if_pos h]
      exact ih ids
    · simp only [dedupLoop, if_neg h, List.map_cons, List.nodup_cons]
      refine ⟨?_, ih _⟩
      intro hmem
      rcases List.mem_map.mp hmem with ⟨r', hr', he⟩
      exact dedupLoop_mem_key rest _ r' hr' (List.mem_insert_iff.mpr (Or.inl he))

lemma dedupLoop_all_known (rs : List Record) (ids : List String) :
    (∀ r ∈ rs, dedupKey r ∈ ids) → (dedupLoop rs ids).1 = [] := by
  induction rs generalizing ids with
  | nil => intro _; simp [dedupLoop]
  | cons r0 rest ih =>
    intro h
    have h0 := h r0 (List.mem_cons_self _ _)
    simp only [dedupLoop, if_pos h0]
    exact ih ids (fun r hr => h r (List.mem_cons_of_mem _ hr))

/-! ### Helper lemmas about the export step -/

lemma export_of_nil (results : List Record) (d : Dest) (ids : List String)
    (h : results.isEmpty = true) : export_to_csv results d ids = (0, d, ids) := by
  simp [export_to_csv, h]

lemma export_of_nonew (results : List Record) (d : Dest) (ids : List String)
    (h1 : results.isEmpty = false) (h2 : (dedupLoop results ids).1.isEmpty = true) :
    export_to_csv results d ids = (0, d, (dedupLoop results ids).2.2) := by
  simp [export_to_csv, h1, h2]

lemma export_dest_eq (results : List Record) (d : Dest) (ids : List String)
    (h1 : results.isEmpty = false) (h2 : (dedupLoop results ids).1.isEmpty = false) :
    export_to_csv results d ids =
      ((dedupLoop results ids).1.length,
       appendToDest d ((if destExistsNonEmpty d then [] else [FIELDNAMES])
         ++ (dedupLoop results ids).1.map recordToRow),
       (dedupLoop results ids).2.2) := by
  simp [export_to_csv, h1, h2]

lemma rowKey_recordToRow (r : Record) :
    rowKey FIELDNAMES (recordToRow r) = dedupKey r := rfl

/-! ### Claim theorems -/

/-- C3: for every operation count `n`, the throughput calculator applied to a
time of 0 nanoseconds returns the numeric throughput 0 paired with the fixed
display string "N/A"; being a total Lean function, it raises no exception and
performs no division by zero. -/
theorem throughput_zero_guard : ∀ n : ℕ, format_throughput 0 n = (0, "N/A") :=
  fun _ => by simp [format_throughput]

/-- C4: for every time `ns > 0` and count `n`, the throughput calculator
returns the numeric value `n * 1e9 / ns`, and its display string is the pure
cascade of that numeric value: ≥1e9 scaled by 1e9 with "Gops/s", ≥1e6 by 1e6
with "Mops/s", ≥1e3 by 1e3 with "Kops/s", else "ops/s", each rendered with
exactly two decimal places by `formatFixed2`. -/
theorem throughput_positive_formula (ns : ℚ) (h : 0 < ns) (n : ℕ) :
    format_throughput ns n =
      ((n * 1000000000 : ℚ) / ns,
        if (n * 1000000000 : ℚ) / ns ≥ 1000000000 then
          formatFixed2 ((n * 1000000000 : ℚ) / ns / 1000000000) ++ " Gops/s"
        else if (n * 1000000000 : ℚ) / ns ≥ 1000000 then
          formatFixed2 ((n * 1000000000 : ℚ) / ns / 1000000) ++ " Mops/s"
        else if (n * 1000000000 : ℚ) / ns ≥ 1000 then
          formatFixed2 ((n * 1000000000 : ℚ) / ns / 1000) ++ " Kops/s"
        else formatFixed2 ((n * 1000000000 : ℚ) / ns) ++ " ops/s") := by
  have hne : ns ≠ 0 := ne_of_gt h
  simp only [format_throughput, if_neg hne]
  split_ifs <;> rfl

/-- Witness for C4 at `ns = 500`, `n = 100` (the spec's scenario input):
100 operations in 500 ns is 2·10⁸ ops/s, displayed as "200.00 Mops/s". -/
theorem throughput_positive_formula_witness :
    (0 : ℚ) < 500 ∧ format_throughput 500 100 = (200000000, "200.00 Mops/s") := by
  refine ⟨by norm_num, ?_⟩
  rw [throughput_positive_formula 500 (by norm_num) 100]
  have h1 : ((100 : ℕ) * 1000000000 : ℚ) / 500 = 200000000 := by norm_num
  rw [h1, if_neg (by norm_num), if_pos (by norm_num)]
  have h2 : (200000000 : ℚ) / 1000000 = 200 := by norm_num
  rw [h2]
  have h4 : roundHalfEven ((200 : ℚ) * 100) = 20000 := by
    simp only [roundHalfEven]
    norm_num
  simp only [formatFixed2, h4]
  decide

/-- C9: a destination that does not exist, and one whose contents cannot be
read as CSV rows, both load as an empty identity-key set rather than raising,
so the run proceeds. -/
theorem load_missing_or_malformed_empty :
    load_existing_run_ids Dest.missing = [] ∧
    load_existing_run_ids Dest.malformed = [] :=
  ⟨rfl, rfl⟩

/-- C2: the sink treats `run_id:test_name` as the sole identity.  Any record
whose key is already known is never appended (whatever its other fields);
every record whose key is unknown gets a representative with its key appended;
the appended records are a subsequence of the input (input order); appended
plus skipped counts exhaust the input; and `export_to_csv` returns exactly the
number of appended records. -/
theorem sink_dedup_by_identity_key (results : List Record) (d : Dest)
    (ids : List String) :
    (∀ r : Record, dedupKey r ∈ ids → r ∉ (dedupLoop results ids).1) ∧
    (∀ r ∈ results, dedupKey r ∉ ids →
      ∃ r' ∈ (dedupLoop results ids).1, dedupKey r' = dedupKey r) ∧
    (dedupLoop results ids).1.Sublist results ∧
    (dedupLoop results ids).1.length + (dedupLoop results ids).2.1
      = results.length ∧
    (results.isEmpty = false → (dedupLoop results ids).1.isEmpty = false →
      (export_to_csv results d ids).1 = (dedupLoop results ids).1.length) :=
  ⟨fun r hk hr => dedupLoop_mem_key results ids r hr hk,
   fun r hr hk => dedupLoop_rep results ids r hr hk,
   dedupLoop_sublist results ids,
   dedupLoop_length results ids,
   fun h1 h2 => by rw [export_dest_eq results d ids h1 h2]⟩

/-- C10: within a single `export_to_csv` call the appended records carry
pairwise-distinct identity keys (so do their CSV rows), they are a subsequence
of the input, appended plus skipped counts exhaust the input, and every
processed key is in the known-key set afterwards — a single invocation never
writes two rows with the same identity key. -/
theorem single_invocation_no_duplicate_keys (results : List Record)
    (ids : List String) :
    ((dedupLoop results ids).1.map dedupKey).Nodup ∧
    ((dedupLoop results ids).1.map (fun r => rowKey FIELDNAMES (recordToRow r))).Nodup ∧
    (dedupLoop results ids).1.Sublist results ∧
    (dedupLoop results ids).1.length + (dedupLoop results ids).2.1
      = results.length ∧
    (∀ r ∈ results, dedupKey r ∈ (dedupLoop results ids).2.2) := by
  refine ⟨dedupLoop_nodupKeys results ids, ?_, dedupLoop_sublist results ids,
    dedupLoop_length results ids, fun r hr => dedupLoop_covers results ids r hr⟩
  simpa [rowKey_recordToRow] using dedupLoop_nodupKeys results ids

/-! ### Helper lemmas about discovery and the pipeline -/

lemma mem_process_test_name (e : FsEntry) (b tn s tg : String) (r : Record)
    (hr : r ∈ process_estimates_file e b tn s tg) : r.test_name = tn := by
  cases e with
  | dir es => simp [process_estimates_file] at hr
  | file f =>
    cases hdat : f.data with
    | none => simp [process_estimates_file, hdat] at hr
    | some dat =>
      simp only [process_estimates_file, hdat, List.mem_singleton] at hr
      subst hr
      rfl

lemma runPipeline_of_empty (c : Option (List (String × FsEntry)))
    (s : String) (bf : Option String) (t : String) (d : Dest)
    (h : (parse_benchmark_results c s bf t).isEmpty = true) :
    runPipeline c s bf t d = (0, d) := by
  simp [runPipeline, h]

lemma runPipeline_of_nonempty (c : Option (List (String × FsEntry)))
    (s : String) (bf : Option String) (t : String) (d : Dest)
    (h : (parse_benchmark_results c s bf t).isEmpty = false) :
    runPipeline c s bf t d =
      ((export_to_csv (parse_benchmark_results c s bf t) d
          (load_existing_run_ids d)).1,
       (export_to_csv (parse_benchmark_results c s bf t) d
          (load_existing_run_ids d)).2.1) := by
  simp [runPipeline, h]

lemma rowKey_comp_recordToRow :
    (fun r => rowKey FIELDNAMES (recordToRow r)) = dedupKey :=
  funext rowKey_recordToRow

lemma keys_subset_after_append (res : List Record) (ids0 : List String)
    (r : Record) (hr : r ∈ res) :
    dedupKey r ∈ ids0 ++ (dedupLoop res ids0).1.map dedupKey := by
  by_cases hk : dedupKey r ∈ ids0
  · exact List.mem_append_left _ hk
  · obtain ⟨r', hr', he⟩ := dedupLoop_rep res ids0 r hr hk
    exact List.mem_append_right _ (he ▸ List.mem_map_of_mem _ hr')

lemma second_run_zero (c : Option (List (String × FsEntry)))
    (s : String) (bf : Option String) (t : String) (d1 : Dest)
    (hne : (parse_benchmark_results c s bf t).isEmpty = false)
    (hcov : ∀ r ∈ parse_benchmark_results c s bf t,
      dedupKey r ∈ load_existing_run_ids d1) :
    (runPipeline c s bf t d1).1 = 0 := by
  rw [runPipeline_of_nonempty _ _ _ _ _ hne]
  have hnil := dedupLoop_all_known _ _ hcov
  rw [export_of_nonew _ _ _ hne (by rw [hnil]; rfl)]

/-- C5: when a test directory's two-level path `source/estimates.json` exists
(here: resolves to a parseable estimates file) and the directory also has at
least one parameter subdirectory with its own `source/estimates.json`, the
discoverer produces exactly one Record for that test directory, namely the
two-level result — the three-level probe is never attempted. -/
theorem two_level_short_circuits_three_level
    (bench_name tname source tag : String) (tentries : List (String × FsEntry))
    (f : EstimatesFile) (dat : EstData)
    (h2 : resolvePath tentries [source, "estimates.json"] = some (FsEntry.file f))
    (hdat : f.data = some dat)
    (hp : ∃ pname pentries, (pname, FsEntry.dir pentries) ∈ tentries ∧
      (resolvePath pentries [source, "estimates.json"]).isSome = true) :
    processTestDir bench_name tname source tag tentries
      = process_estimates_file (FsEntry.file f) bench_name tname source tag ∧
    (processTestDir bench_name tname source tag tentries).length = 1 := by
  have he : processTestDir bench_name tname source tag tentries
      = process_estimates_file (FsEntry.file f) bench_name tname source tag := by
    simp only [processTestDir, h2]
  refine ⟨he, ?_⟩
  rw [he]
  simp [process_estimates_file, hdat]

/-- Witness for C5 on `demoBoth`, which has both layouts. -/
theorem two_level_short_circuits_witness :
    processTestDir "compare_get" "insert" "new" "" demoBoth
      = process_estimates_file (FsEntry.file demoEst) "compare_get" "insert" "new" "" ∧
    (processTestDir "compare_get" "insert" "new" "" demoBoth).length = 1 :=
  two_level_short_circuits_three_level "compare_get" "insert" "new" "" demoBoth
    demoEst ⟨some 500, some 520⟩ rfl rfl
    ⟨"100", [("new", FsEntry.dir [("estimates.json", FsEntry.file demoEst2)])],
      List.Mem.tail _ (List.Mem.head _), rfl⟩

/-- C6: `export_to_csv` leaves the destination untouched when it appends
nothing, and on a successful append of at least one record it appends exactly
the new rows in the fixed `FIELDNAMES` column order, preceded by the header
exactly when the destination did not exist or was empty — an already-populated
destination gets no additional header. -/
theorem header_written_once_fixed_columns (results : List Record)
    (ids : List String) (d : Dest)
    (hd : d = Dest.missing ∨ ∃ L, d = Dest.table L) :
    ((results.isEmpty = true ∨ (dedupLoop results ids).1.isEmpty = true) →
      (export_to_csv results d ids).2.1 = d) ∧
    (results.isEmpty = false → (dedupLoop results ids).1.isEmpty = false →
      (export_to_csv results d ids).2.1 =
        Dest.table (destLines d
          ++ (if destLines d = [] then [FIELDNAMES] else [])
          ++ (dedupLoop results ids).1.map recordToRow)) := by
  constructor
  · rintro (h | h)
    · rw [export_of_nil results d ids h]
    · by_cases he : results.isEmpty = true
      · rw [export_of_nil results d ids he]
      · rw [export_of_nonew results d ids (by simpa using he) h]
  · intro h1 h2
    rw [export_dest_eq results d ids h1 h2]
    rcases hd with rfl | ⟨L, rfl⟩
    · simp [appendToDest, destExistsNonEmpty, destLines]
    · cases L with
      | nil => simp [appendToDest, destExistsNonEmpty, destLines]
      | cons a as => simp [appendToDest, destExistsNonEmpty, destLines]

/-- Witness for C6: one fresh record appended to a missing destination. -/
theorem header_written_once_witness :
    ((([demoRecA] : List Record).isEmpty = true ∨
        (dedupLoop [demoRecA] []).1.isEmpty = true) →
      (export_to_csv [demoRecA] Dest.missing []).2.1 = Dest.missing) ∧
    (([demoRecA] : List Record).isEmpty = false →
      (dedupLoop [demoRecA] []).1.isEmpty = false →
      (export_to_csv [demoRecA] Dest.missing []).2.1 =
        Dest.table (destLines Dest.missing
          ++ (if destLines Dest.missing = [] then [FIELDNAMES] else [])
          ++ (dedupLoop [demoRecA] []).1.map recordToRow)) :=
  header_written_once_fixed_columns [demoRecA] [] Dest.missing (Or.inl rfl)

/-- C7: the operation count handed to the throughput calculator is the size
field's value exactly when that field is a (non-negative, digits-only) integer
string, and 1 for every other size string — including the "N/A" sentinel,
negative numbers and non-numeric text — as reflected in the throughput fields
of every record `process_estimates_file` builds. -/
theorem size_field_operation_count (f : EstimatesFile) (dat : EstData)
    (bench_name test_name source tag : String)
    (hdat : f.data = some dat) :
    (process_estimates_file (FsEntry.file f) bench_name test_name source tag).map
        (fun r => (r.throughput_ops_sec, r.throughput_pretty))
      = [((round2 (format_throughput (dat.median.getD 0)
            (if pyIsDigit (if 1 < (pySplit '/' test_name).length
                           then (pySplit '/' test_name).getD 1 "N/A" else "N/A")
             then natFromDigits (if 1 < (pySplit '/' test_name).length
                           then (pySplit '/' test_name).getD 1 "N/A" else "N/A")
             else 1)).1),
          (format_throughput (dat.median.getD 0)
            (if pyIsDigit (if 1 < (pySplit '/' test_name).length
                           then (pySplit '/' test_name).getD 1 "N/A" else "N/A")
             then natFromDigits (if 1 < (pySplit '/' test_name).length
                           then (pySplit '/' test_name).getD 1 "N/A" else "N/A")
             else 1)).2)] := by
  simp only [process_estimates_file, hdat, List.map_cons, List.map_nil]

/-- Witness for C7 at a numeric size segment ("insert/100" → count 100). -/
theorem size_field_operation_count_witness :
    (process_estimates_file (FsEntry.file demoEst) "b" "insert/100" "new" "").map
        (fun r => (r.throughput_ops_sec, r.throughput_pretty))
      = [((round2 (format_throughput ((some (500:ℚ)).getD 0)
            (if pyIsDigit (if 1 < (pySplit '/' "insert/100").length
                           then (pySplit '/' "insert/100").getD 1 "N/A" else "N/A")
             then natFromDigits (if 1 < (pySplit '/' "insert/100").length
                           then (pySplit '/' "insert/100").getD 1 "N/A" else "N/A")
             else 1)).1),
          (format_throughput ((some (500:ℚ)).getD 0)
            (if pyIsDigit (if 1 < (pySplit '/' "insert/100").length
                           then (pySplit '/' "insert/100").getD 1 "N/A" else "N/A")
             then natFromDigits (if 1 < (pySplit '/' "insert/100").length
                           then (pySplit '/' "insert/100").getD 1 "N/A" else "N/A")
             else 1)).2)] :=
  size_field_operation_count demoEst ⟨some 500, some 520⟩ "b" "insert/100" "new" "" rfl

/-- C8: the normalizer derives `operation` from the first '/'-separated
segment of the hierarchical test identity and `size` from the second segment
when one exists (else the "N/A" sentinel); and every record a three-level
(parameterized) match produces carries the test identity formed by joining
the test-directory and parameter-directory names with '/'. -/
theorem path_normalizer_operation_size
    (e : FsEntry) (bench_name test_name source tag : String)
    (tentries : List (String × FsEntry))
    (h1 : resolvePath tentries [source, "estimates.json"] = none) :
    ((process_estimates_file e bench_name test_name source tag).map
        (fun r => (r.operation, r.size))
      = (process_estimates_file e bench_name test_name source tag).map (fun _ =>
          ((pySplit '/' test_name).headD test_name,
           if 1 < (pySplit '/' test_name).length
           then (pySplit '/' test_name).getD 1 "N/A" else "N/A"))) ∧
    (∀ r ∈ processTestDir bench_name test_name source tag tentries,
      ∃ pname pentries, (pname, FsEntry.dir pentries) ∈ tentries ∧
        r.test_name = test_name ++ "/" ++ pname) := by
  constructor
  · cases e with
    | dir es => simp [process_estimates_file]
    | file f =>
      cases hdat : f.data with
      | none => simp [process_estimates_file, hdat]
      | some dat => simp [process_estimates_file, hdat]
  · intro r hr
    simp only [processTestDir, h1] at hr
    rw [List.mem_flatten] at hr
    obtain ⟨l, hl, hrl⟩ := hr
    rw [List.mem_map] at hl
    obtain ⟨p, hp, rfl⟩ := hl
    obtain ⟨pname, pe⟩ := p
    cases pe with
    | file pf => simp at hrl
    | dir pentries =>
      cases hres : resolvePath pentries [source, "estimates.json"] with
      | none => simp [hres] at hrl
      | some e' =>
        simp only [hres] at hrl
        exact ⟨pname, pentries, hp,
          mem_process_test_name e' bench_name (test_name ++ "/" ++ pname)
            source tag r hrl⟩

/-- Witness for C8: the two-segment identity "insert/100" (first conjunct) and
the record discovered from the parameterized layout `demoParams` under test
directory `insert` (second conjunct). -/
theorem path_normalizer_operation_size_witness :
    ((process_estimates_file (FsEntry.file demoEst) "b" "insert/100" "new" "").map
        (fun r => (r.operation, r.size)) = [("insert", "100")]) ∧
    (∃ pname pentries, (pname, FsEntry.dir pentries) ∈ demoParams ∧
      demoRecord.test_name = "insert" ++ "/" ++ pname) := by
  constructor
  · rw [(path_normalizer_operation_size (FsEntry.file demoEst) "b" "insert/100"
      "new" "" demoParams rfl).1]
    decide
  · exact (path_normalizer_operation_size (FsEntry.file demoEst) "b" "insert"
      "new" "" demoParams rfl).2 demoRecord
      (show demoRecord ∈ demoRecord :: [] from List.Mem.head _)

lemma load_table_cons (hdr : List String) (rows : List (List String)) :
    load_existing_run_ids (Dest.table (hdr :: rows)) = rows.map (rowKey hdr) := rfl

lemma cov_after_export (res : List Record) (d : Dest)
    (hd : d = Dest.missing ∨ d = Dest.table [] ∨
      ∃ rows, d = Dest.table (FIELDNAMES :: rows))
    (r : Record) (hr : r ∈ res) :
    dedupKey r ∈ load_existing_run_ids (appendToDest d
      ((if destExistsNonEmpty d then [] else [FIELDNAMES])
        ++ (dedupLoop res (load_existing_run_ids d)).1.map recordToRow)) := by
  rcases hd with rfl | rfl | ⟨rows, rfl⟩
  · simp only [destExistsNonEmpty, Bool.false_eq_true, if_false, appendToDest,
      List.singleton_append, load_table_cons, List.map_map, Function.comp_def,
      rowKey_recordToRow]
    simpa [load_existing_run_ids] using
      keys_subset_after_append res (load_existing_run_ids Dest.missing) r hr
  · simp only [destExistsNonEmpty, List.isEmpty_nil, Bool.not_true,
      Bool.false_eq_true, if_false, appendToDest, List.nil_append,
      List.singleton_append, load_table_cons, List.map_map, Function.comp_def,
      rowKey_recordToRow]
    simpa [load_existing_run_ids] using
      keys_subset_after_append res (load_existing_run_ids (Dest.table [])) r hr
  · simp only [destExistsNonEmpty, List.isEmpty_cons, Bool.not_false,
      if_true, appendToDest, List.nil_append, List.cons_append,
      load_table_cons, List.map_append, List.map_map, Function.comp_def,
      rowKey_recordToRow]
    simpa [load_table_cons] using
      keys_subset_after_append res
        (load_existing_run_ids (Dest.table (FIELDNAMES :: rows))) r hr

/-- C1: running the discover-then-export pipeline twice over an unchanged
filesystem (discovery is a pure function of the tree, so the second run
discovers the same records with the same mtime-derived identity keys) and a
destination that is absent, empty, or a table carrying the program's header
writes zero new records on the second run: every discovered identity key is
already present in the destination loaded by `load_existing_run_ids`, so the
export step returns 0. -/
theorem pipeline_idempotent_second_run_zero
    (criterion_dir : Option (List (String × FsEntry)))
    (source : String) (bench_filter : Option String) (tag : String) (d : Dest)
    (hd : d = Dest.missing ∨ d = Dest.table [] ∨
      ∃ rows, d = Dest.table (FIELDNAMES :: rows)) :
    (runPipeline criterion_dir source bench_filter tag
      (runPipeline criterion_dir source bench_filter tag d).2).1 = 0 := by
  by_cases h0 : (parse_benchmark_results criterion_dir source bench_filter
      tag).isEmpty = true
  · rw [runPipeline_of_empty _ _ _ _ d h0]
    rw [runPipeline_of_empty _ _ _ _ _ h0]
  · have h0' : (parse_benchmark_results criterion_dir source bench_filter
        tag).isEmpty = false := by simpa using h0
    by_cases h1 : (dedupLoop (parse_benchmark_results criterion_dir source
        bench_filter tag) (load_existing_run_ids d)).1.isEmpty = true
    · have hfirst : (runPipeline criterion_dir source bench_filter tag d).2 = d := by
        rw [runPipeline_of_nonempty _ _ _ _ d h0', export_of_nonew _ _ _ h0' h1]
      rw [hfirst, runPipeline_of_nonempty _ _ _ _ d h0',
        export_of_nonew _ _ _ h0' h1]
    · have h1' : (dedupLoop (parse_benchmark_results criterion_dir source
          bench_filter tag) (load_existing_run_ids d)).1.isEmpty = false := by
        simpa using h1
      have hdest : (runPipeline criterion_dir source bench_filter tag d).2
          = appendToDest d ((if destExistsNonEmpty d then [] else [FIELDNAMES])
              ++ (dedupLoop (parse_benchmark_results criterion_dir source
                    bench_filter tag)
                  (load_existing_run_ids d)).1.map recordToRow) := by
        rw [runPipeline_of_nonempty _ _ _ _ d h0', export_dest_eq _ _ _ h0' h1']
      rw [hdest]
      exact second_run_zero _ _ _ _ _ h0'
        (fun r hr => cov_after_export _ d hd r hr)

/-- Witness for C1: the demo tree exported twice starting from a missing
destination; the second run writes nothing. -/
theorem pipeline_idempotent_witness :
    (runPipeline demoFs "new" none ""
      (runPipeline demoFs "new" none "" Dest.missing).2).1 = 0 :=
  pipeline_idempotent_second_run_zero demoFs "new" none "" Dest.missing
    (Or.inl rfl)

/-- Witness for C3 at count 3. -/
theorem throughput_zero_guard_witness : format_throughput 0 3 = (0, "N/A") :=
  throughput_zero_guard 3

/-- Witness for C2: two records sharing identity key "r1:t1" (all other
fields differing) against a key set that already knows "r1:t1". -/
theorem sink_dedup_by_identity_key_witness :
    (∀ r : Record, dedupKey r ∈ ["r1:t1"] →
      r ∉ (dedupLoop [demoRecA, demoRecB] ["r1:t1"]).1) ∧
    (∀ r ∈ [demoRecA, demoRecB], dedupKey r ∉ ["r1:t1"] →
      ∃ r' ∈ (dedupLoop [demoRecA, demoRecB] ["r1:t1"]).1,
        dedupKey r' = dedupKey r) ∧
    (dedupLoop [demoRecA, demoRecB] ["r1:t1"]).1.Sublist [demoRecA, demoRecB] ∧
    (dedupLoop [demoRecA, demoRecB] ["r1:t1"]).1.length
      + (dedupLoop [demoRecA, demoRecB] ["r1:t1"]).2.1
      = ([demoRecA, demoRecB] : List Record).length ∧
    (([demoRecA, demoRecB] : List Record).isEmpty = false →
      (dedupLoop [demoRecA, demoRecB] ["r1:t1"]).1.isEmpty = false →
      (export_to_csv [demoRecA, demoRecB] Dest.missing ["r1:t1"]).1
        = (dedupLoop [demoRecA, demoRecB] ["r1:t1"]).1.length) :=
  sink_dedup_by_identity_key [demoRecA, demoRecB] Dest.missing ["r1:t1"]

/-- Witness for C10: an input list containing two records with the same
identity key and a fresh key set. -/
theorem single_invocation_no_duplicate_keys_witness :
    ((dedupLoop [demoRecA, demoRecB] []).1.map dedupKey).Nodup ∧
    ((dedupLoop [demoRecA, demoRecB] []).1.map
        (fun r => rowKey FIELDNAMES (recordToRow r))).Nodup ∧
    (dedupLoop [demoRecA, demoRecB] []).1.Sublist [demoRecA, demoRecB] ∧
    (dedupLoop [demoRecA, demoRecB] []).1.length
      + (dedupLoop [demoRecA, demoRecB] []).2.1
      = ([demoRecA, demoRecB] : List Record).length ∧
    (∀ r ∈ [demoRecA, demoRecB],
      dedupKey r ∈ (dedupLoop [demoRecA, demoRecB] []).2.2) :=
  single_invocation_no_duplicate_keys [demoRecA, demoRecB] []
